import Mathlib

/-!
Verification of the EventPass registration-consistency path.

Shallow embedding of the event-registration protocol of the
`Modulo4CitySpot` repository (modules 4/5, "Event Pass" / "EventPass Pro"):

* the Firestore data layer `registerForEvent`
  (`src/web/module5-event-pass-pro/src/lib/firebase/firestore.ts`), which
  ships in two variants:
  - a *marker-based* variant (first document in the file, lines 110-164):
    runs a transaction that reads the event document and the per-user
    registration marker, throws `Error('Evento no encontrado')`,
    `Error('UserAlreadyRegistered')` or `Error('EventFull')`, and otherwise
    creates the marker and increments `registeredCount` by one;
  - a *count-only* variant (second document, lines 363-405): runs a
    transaction that reads only the event document, returns `null` on a
    missing document, on `registeredCount >= capacity`, or on
    `status !== 'publicado'`, and otherwise only increments
    `registeredCount` (its `_userId` parameter is unused and no
    registration marker is touched);
* the server action `registerForEventAction`
  (`src/web/module5-event-pass-pro/src/actions/eventActions.ts`);
* the optimistic client component `RegisterButton`
  (`src/web/module5-event-pass-pro/src/components/RegisterButton.tsx`).

A Firestore transaction aborts when the callback throws and commits its
queued writes otherwise, so an embedded transaction is a function from the
ledger state to (next ledger state, result); every throwing / null-returning
branch of the source issues no write before it exits, hence returns the
input state unchanged.

Machine numbers are embedded as `Int`; a document field that may be absent
is an `Option`. Fields of the event document that the registration logic
never reads (title, date, location, ...) are omitted.
-/

namespace EventPass

/-- The fields of a Firestore `events/{id}` document that the registration
logic reads. `none` models an absent field. -/
structure EventDoc where
  registeredCount : Option Int
  capacity : Option Int
  status : String
deriving Repr, DecidableEq

/-- The ledger state for one event: the event document (if it exists) and
the set of registration markers `events/{id}/registrations/{userId}`,
represented by the list of user ids that own a marker. -/
structure LedgerState where
  eventDoc : Option EventDoc
  registrations : List String
deriving Repr, DecidableEq

/-- The business-rule errors thrown by the marker-based variant:
`Error('Evento no encontrado')`, `Error('UserAlreadyRegistered')`,
`Error('EventFull')`. -/
inductive RegError where
  | notFound
  | alreadyRegistered
  | eventFull
deriving Repr, DecidableEq

/-- The message string carried by each thrown `Error`. -/
def RegError.message : RegError → String
  | .notFound => "Evento no encontrado"
  | .alreadyRegistered => "UserAlreadyRegistered"
  | .eventFull => "EventFull"

/-- Marker-based `registerForEvent` (firestore.ts, first document,
lines 110-164), as one atomic transaction: check document existence, then
the per-user marker, then `currentCount >= capacity` where
`currentCount = data.registeredCount || 0` and `capacity = data.capacity || 0`;
on success, set the marker and update `registeredCount` to `currentCount + 1`.
Throwing aborts the transaction, so every error branch returns the input
state unchanged. The result on success is the updated event document. -/
def registerForEvent (s : LedgerState) (userId : String) :
    LedgerState × Except RegError EventDoc :=
  match s.eventDoc with
  | none => (s, .error .notFound)
  | some d =>
      if userId ∈ s.registrations then
        (s, .error .alreadyRegistered)
      else
        let currentCount := d.registeredCount.getD 0
        let capacity := d.capacity.getD 0
        if currentCount ≥ capacity then
          (s, .error .eventFull)
        else
          let newDoc : EventDoc := { d with registeredCount := some (currentCount + 1) }
          ({ eventDoc := some newDoc, registrations := userId :: s.registrations },
            .ok newDoc)

/-- JavaScript `a >= b` when `b` may be `undefined`: any comparison with
`undefined` is `false`. -/
def jsGe (a : Int) : Option Int → Bool
  | none => false
  | some b => a ≥ b

/-- Count-only `registerForEvent` (firestore.ts, second document,
lines 363-405), as one atomic transaction: return `null` on a missing
document, on `currentCount >= data.capacity` (with
`currentCount = data.registeredCount ?? 0` and a raw, possibly `undefined`,
`data.capacity`), or on `data.status !== 'publicado'`; otherwise update
`registeredCount` to `currentCount + 1`. The `_userId` parameter is unused
in the source and no registration marker is read or written. -/
def registerForEventCountOnly (s : LedgerState) (_userId : String) :
    LedgerState × Option EventDoc :=
  match s.eventDoc with
  | none => (s, none)
  | some d =>
      let currentCount := d.registeredCount.getD 0
      if jsGe currentCount d.capacity then
        (s, none)
      else if d.status ≠ "publicado" then
        (s, none)
      else
        let newDoc : EventDoc := { d with registeredCount := some (currentCount + 1) }
        ({ s with eventDoc := some newDoc }, some newDoc)

/-- A sequence of marker-based `registerForEvent` transactions, executed one
at a time; returns the final state and each call's (userId, result). -/
def runRegisters (s : LedgerState) : List String →
    LedgerState × List (String × Except RegError EventDoc)
  | [] => (s, [])
  | u :: us =>
      let p := registerForEvent s u
      let q := runRegisters p.fst us
      (q.fst, (u, p.snd) :: q.snd)

/-- A sequence of count-only `registerForEvent` transactions. -/
def runRegistersCountOnly (s : LedgerState) : List String →
    LedgerState × List (Option EventDoc)
  | [] => (s, [])
  | u :: us =>
      let p := registerForEventCountOnly s u
      let q := runRegistersCountOnly p.fst us
      (q.fst, p.snd :: q.snd)

/-- Whether an `Except` result is a success. -/
def exceptOk : Except RegError EventDoc → Bool
  | .ok _ => true
  | .error _ => false

/-- Number of successful calls in a marker-based run. -/
def successCount (rs : List (String × Except RegError EventDoc)) : Nat :=
  (rs.filter (fun p => exceptOk p.snd)).length

/-- Number of successful calls of a given user in a marker-based run. -/
def successCountFor (u : String) (rs : List (String × Except RegError EventDoc)) : Nat :=
  (rs.filter (fun p => p.fst == u && exceptOk p.snd)).length

/-- Number of successful calls in a count-only run. -/
def successCountV2 (rs : List (Option EventDoc)) : Nat :=
  (rs.filter (fun r => r.isSome)).length

/-- The `registeredCount` the transaction would read from a state
(`data.registeredCount || 0`, and 0 when the document is missing). -/
def countOf (s : LedgerState) : Int :=
  match s.eventDoc with
  | none => 0
  | some d => d.registeredCount.getD 0

/-- The ledger invariant of a capacity-`C` event: the document exists, its
`capacity` field is `C`, and `0 ≤ registeredCount ≤ C` (reading an absent
`registeredCount` as 0, as both transaction variants do). -/
def CapacityInv (C : Int) (s : LedgerState) : Prop :=
  match s.eventDoc with
  | none => False
  | some d => d.capacity = some C ∧ 0 ≤ d.registeredCount.getD 0 ∧
      d.registeredCount.getD 0 ≤ C

/-- The marker invariant: whenever the event document exists, the number of
registration markers equals its `registeredCount` (absent read as 0). -/
def MarkerInv (s : LedgerState) : Prop :=
  ∀ d, s.eventDoc = some d → (s.registrations.length : Int) = d.registeredCount.getD 0

/-!
Server action (`eventActions.ts`, `registerForEventAction`).

`registerForEventAction` first validates authentication (`validateAuth`,
which yields a uid or `null`); unauthenticated requests get the
`authError()` form state. It then calls the data layer inside `try`:
a thrown error is caught and mapped to
`{success: false, message: error.message || 'Error al registrarse'}`,
a `null` result to `{success: false, message: 'No se pudo completar el
registro. Intenta de nuevo.'}`, and an event to
`{success: true, message: '¡Te has registrado correctamente!', data: event}`.
The embedding is parametric in the data-layer outcome, which is either a
thrown error message (`Except.error`) or a returned `Event | null`
(`Except.ok`).
-/

/-- The slice of `FormState` (`types/event.ts`) that
`registerForEventAction` produces: the `success` flag, the `message`, the
`errors.auth` entry set by `authError()`, and the returned event `data`. -/
structure FormState where
  success : Bool
  message : Option String := none
  errorsAuth : Option (List String) := none
  data : Option EventDoc := none
deriving Repr, DecidableEq

/-- The `authError()` helper from eventActions.ts. -/
def authError : FormState :=
  { success := false
    message := some "Debes iniciar sesión para realizar esta acción"
    errorsAuth := some ["No autenticado"] }

/-- JavaScript `a || b` on strings: the empty string is falsy. -/
def jsOrString (a b : String) : String :=
  if a = "" then b else a

/-- The server action `registerForEventAction` (eventActions.ts lines
338-368), parametric in
the authentication outcome (`validateAuth`) and in the data-layer outcome
(`Except.error m` embeds a thrown `Error` with message `m`; `Except.ok`
embeds a normal return of `Event | null`). -/
def registerForEventAction (auth : Option String)
    (dataResult : Except String (Option EventDoc)) : FormState :=
  match auth with
  | none => authError
  | some _ =>
      match dataResult with
      | .error m =>
          { success := false, message := some (jsOrString m "Error al registrarse") }
      | .ok none =>
          { success := false
            message := some "No se pudo completar el registro. Intenta de nuevo." }
      | .ok (some ev) =>
          { success := true
            message := some "¡Te has registrado correctamente!"
            data := some ev }

/-- The data-layer outcome of the marker-based `registerForEvent` as the
action observes it: a success returns the event, a thrown `RegError`
surfaces as its message string. -/
def markersDataResult (r : Except RegError EventDoc) : Except String (Option EventDoc) :=
  match r with
  | .ok d => .ok (some d)
  | .error e => .error e.message

/-- The server action composed with the marker-based data layer: the data
layer runs only when authentication succeeded. Returns the next ledger
state and the `FormState` handed to the client. -/
def actionWithMarkers (auth : Option String) (s : LedgerState) :
    LedgerState × FormState :=
  match auth with
  | none => (s, authError)
  | some uid =>
      let p := registerForEvent s uid
      (p.fst, registerForEventAction auth (markersDataResult p.snd))

/-- The server action composed with the count-only data layer (which never
throws a business-rule error: it returns the event or `null`). -/
def actionWithCountOnly (auth : Option String) (s : LedgerState) :
    LedgerState × FormState :=
  match auth with
  | none => (s, authError)
  | some uid =>
      let p := registerForEventCountOnly s uid
      (p.fst, registerForEventAction auth (.ok p.snd))

/-!
Optimistic client (`RegisterButton.tsx`).

The component receives `availableSpots` (the authoritative value from the
server render) and `isAvailable`; `useOptimistic(availableSpots, reducer)`
yields `optimisticSpots`, which equals `reducer availableSpots = max 0
(availableSpots - 1)` while the registration transition is pending and
reverts to the base `availableSpots` once the transition settles without a
prop update (React reverts the optimistic value automatically, as the
component's own comments state). The component renders:

* the `¡Registrado!` confirmation button when
  `showRegistered = optimisticSpots < availableSpots`;
* a disabled `Evento Agotado` / `No disponible` button when
  `canRegister = isAvailable && optimisticSpots > 0 && !showRegistered`
  is false;
* otherwise the register button, with a spinner while `isPending`.

On a failed action result, `handleRegister` only runs
`console.error('Error al registrar:', result.message)`; nothing else is
shown or returned.
-/

/-- The reducer passed to `useOptimistic`:
`(currentSpots, _action) => Math.max(0, currentSpots - 1)`. -/
def optimisticReducer (currentSpots : Int) : Int :=
  max 0 (currentSpots - 1)

/-- The three shapes of button `RegisterButton` can render. -/
inductive RenderedView where
  /-- The disabled `¡Registrado!` confirmation button. -/
  | registeredBadge
  /-- The disabled button; `soldOut = true` renders `Evento Agotado`,
  otherwise `No disponible`. -/
  | disabledBadge (soldOut : Bool)
  /-- The active register button; `pending` shows the spinner, otherwise
  the label carries `spots`. -/
  | registerButton (pending : Bool) (spots : Int)
deriving Repr, DecidableEq

/-- The render logic of `RegisterButton` (RegisterButton.tsx lines 70-134)
as a function of the props (`availableSpots`, `isAvailable`), the current
`optimisticSpots`, and `isPending`. -/
def renderRegisterButton (availableSpots optimisticSpots : Int)
    (isAvailable isPending : Bool) : RenderedView :=
  let showRegistered := optimisticSpots < availableSpots
  let canRegister := isAvailable && decide (optimisticSpots > 0) && !showRegistered
  if showRegistered then
    .registeredBadge
  else if !canRegister then
    .disabledBadge (optimisticSpots == 0)
  else
    .registerButton isPending optimisticSpots

/-- What the component state looks like once `handleRegister`'s transition
settles: the displayed spots (the optimistic value after React reverts to
the base prop), the message surfaced to the user interface, and the message
passed to `console.error`. -/
structure SettledOutcome where
  displayedSpots : Int
  surfacedMessage : Option String
  loggedError : Option String
deriving Repr, DecidableEq

/-- Settlement of `handleRegister` (RegisterButton.tsx lines 83-97): the
optimistic value reverts to the base `availableSpots` prop either way; on
`!result.success` the only effect is `console.error` with
`result.message`; no message is surfaced to the UI in either branch. -/
def settleRegister (availableSpots : Int) (result : FormState) : SettledOutcome :=
  if result.success then
    { displayedSpots := availableSpots, surfacedMessage := none, loggedError := none }
  else
    { displayedSpots := availableSpots
      surfacedMessage := none
      loggedError := some (result.message.getD "") }

/-!
Step-characterization lemmas for the two transaction variants.
-/

lemma register_eq_of_none {s : LedgerState} (u : String) (hd : s.eventDoc = none) :
    registerForEvent s u = (s, .error .notFound) := by
  unfold registerForEvent
  rw [hd]

lemma register_eq_of_mem {s : LedgerState} {u : String} {d : EventDoc}
    (hd : s.eventDoc = some d) (hm : u ∈ s.registrations) :
    registerForEvent s u = (s, .error .alreadyRegistered) := by
  unfold registerForEvent
  rw [hd]
  simp [hm]

lemma register_eq_of_full {s : LedgerState} {u : String} {d : EventDoc}
    (hd : s.eventDoc = some d) (hm : u ∉ s.registrations)
    (hc : d.registeredCount.getD 0 ≥ d.capacity.getD 0) :
    registerForEvent s u = (s, .error .eventFull) := by
  unfold registerForEvent
  rw [hd]
  simp [hm, hc]

lemma register_eq_of_free {s : LedgerState} {u : String} {d : EventDoc}
    (hd : s.eventDoc = some d) (hm : u ∉ s.registrations)
    (hc : d.registeredCount.getD 0 < d.capacity.getD 0) :
    registerForEvent s u =
      ({ eventDoc := some { d with registeredCount := some (d.registeredCount.getD 0 + 1) },
         registrations := u :: s.registrations },
        .ok { d with registeredCount := some (d.registeredCount.getD 0 + 1) }) := by
  unfold registerForEvent
  rw [hd]
  simp [hm, not_le.mpr hc]

/-- Every call of the marker-based transaction either aborts, leaving the
state unchanged, or commits a marker insertion together with the increment
of a strictly-below-capacity count. -/
lemma register_cases (s : LedgerState) (u : String) :
    ((registerForEvent s u).fst = s ∧ exceptOk (registerForEvent s u).snd = false) ∨
    (∃ d, s.eventDoc = some d ∧ u ∉ s.registrations ∧
      d.registeredCount.getD 0 < d.capacity.getD 0 ∧
      registerForEvent s u =
        ({ eventDoc := some { d with registeredCount := some (d.registeredCount.getD 0 + 1) },
           registrations := u :: s.registrations },
          .ok { d with registeredCount := some (d.registeredCount.getD 0 + 1) })) := by
  cases hd : s.eventDoc with
  | none => exact Or.inl (by rw [register_eq_of_none u hd]; exact ⟨rfl, rfl⟩)
  | some d =>
      by_cases hm : u ∈ s.registrations
      · exact Or.inl (by rw [register_eq_of_mem hd hm]; exact ⟨rfl, rfl⟩)
      · by_cases hc : d.registeredCount.getD 0 ≥ d.capacity.getD 0
        · exact Or.inl (by rw [register_eq_of_full hd hm hc]; exact ⟨rfl, rfl⟩)
        · exact Or.inr ⟨d, rfl, hm, not_le.mp hc, register_eq_of_free hd hm (not_le.mp hc)⟩

lemma countOnly_eq_of_none {s : LedgerState} (u : String) (hd : s.eventDoc = none) :
    registerForEventCountOnly s u = (s, none) := by
  unfold registerForEventCountOnly
  rw [hd]

lemma countOnly_eq_of_full {s : LedgerState} {d : EventDoc} (u : String)
    (hd : s.eventDoc = some d)
    (hc : jsGe (d.registeredCount.getD 0) d.capacity = true) :
    registerForEventCountOnly s u = (s, none) := by
  unfold registerForEventCountOnly
  rw [hd]
  simp [hc]

lemma countOnly_eq_of_unpublished {s : LedgerState} {d : EventDoc} (u : String)
    (hd : s.eventDoc = some d)
    (hc : jsGe (d.registeredCount.getD 0) d.capacity = false)
    (hs : d.status ≠ "publicado") :
    registerForEventCountOnly s u = (s, none) := by
  unfold registerForEventCountOnly
  rw [hd]
  simp [hc, hs]

lemma countOnly_eq_of_free {s : LedgerState} {d : EventDoc} (u : String)
    (hd : s.eventDoc = some d)
    (hc : jsGe (d.registeredCount.getD 0) d.capacity = false)
    (hs : d.status = "publicado") :
    registerForEventCountOnly s u =
      ({ s with eventDoc := some { d with registeredCount := some (d.registeredCount.getD 0 + 1) } },
        some { d with registeredCount := some (d.registeredCount.getD 0 + 1) }) := by
  unfold registerForEventCountOnly
  rw [hd]
  simp [hc, hs]

/-- Every call of the count-only transaction either fails with `null`,
leaving the state unchanged, or commits the count increment on a published,
not-full event; registration markers are never touched. -/
lemma countOnly_cases (s : LedgerState) (u : String) :
    ((registerForEventCountOnly s u).fst = s ∧ (registerForEventCountOnly s u).snd = none) ∨
    (∃ d, s.eventDoc = some d ∧
      jsGe (d.registeredCount.getD 0) d.capacity = false ∧ d.status = "publicado" ∧
      registerForEventCountOnly s u =
        ({ s with eventDoc := some { d with registeredCount := some (d.registeredCount.getD 0 + 1) } },
          some { d with registeredCount := some (d.registeredCount.getD 0 + 1) })) := by
  cases hd : s.eventDoc with
  | none => exact Or.inl (by rw [countOnly_eq_of_none u hd]; exact ⟨rfl, rfl⟩)
  | some d =>
      by_cases hc : jsGe (d.registeredCount.getD 0) d.capacity = true
      · exact Or.inl (by rw [countOnly_eq_of_full u hd hc]; exact ⟨rfl, rfl⟩)
      · by_cases hs : d.status = "publicado"
        · exact Or.inr ⟨d, rfl, Bool.not_eq_true _ ▸ hc, hs,
            countOnly_eq_of_free u hd (Bool.not_eq_true _ ▸ hc) hs⟩
        · exact Or.inl (by
            rw [countOnly_eq_of_unpublished u hd (Bool.not_eq_true _ ▸ hc) hs]
            exact ⟨rfl, rfl⟩)

/-!
Counting lemmas and run-level unfoldings.
-/

lemma runRegisters_nil (s : LedgerState) : runRegisters s [] = (s, []) := rfl

lemma runRegisters_cons (s : LedgerState) (u : String) (us : List String) :
    runRegisters s (u :: us) =
      ((runRegisters (registerForEvent s u).fst us).fst,
        (u, (registerForEvent s u).snd) :: (runRegisters (registerForEvent s u).fst us).snd) := rfl

lemma runRegistersCountOnly_nil (s : LedgerState) : runRegistersCountOnly s [] = (s, []) := rfl

lemma runRegistersCountOnly_cons (s : LedgerState) (u : String) (us : List String) :
    runRegistersCountOnly s (u :: us) =
      ((runRegistersCountOnly (registerForEventCountOnly s u).fst us).fst,
        (registerForEventCountOnly s u).snd ::
          (runRegistersCountOnly (registerForEventCountOnly s u).fst us).snd) := rfl

lemma successCount_cons (u : String) (r : Except RegError EventDoc)
    (rs : List (String × Except RegError EventDoc)) :
    successCount ((u, r) :: rs) = (if exceptOk r = true then 1 else 0) + successCount rs := by
  by_cases h : exceptOk r = true <;>
    simp [successCount, List.filter_cons, h, Nat.add_comm]

lemma successCountFor_cons (v u : String) (r : Except RegError EventDoc)
    (rs : List (String × Except RegError EventDoc)) :
    successCountFor u ((v, r) :: rs) =
      (if v = u ∧ exceptOk r = true then 1 else 0) + successCountFor u rs := by
  by_cases hv : v = u
  · by_cases h : exceptOk r = true <;>
      simp [successCountFor, List.filter_cons, hv, h, Nat.add_comm]
  · simp [successCountFor, List.filter_cons, hv]

lemma successCountV2_cons (r : Option EventDoc) (rs : List (Option EventDoc)) :
    successCountV2 (r :: rs) = (if r.isSome then 1 else 0) + successCountV2 rs := by
  by_cases h : r.isSome <;>
    simp [successCountV2, List.filter_cons, h, Nat.add_comm]

/-!
Preservation of the capacity invariant and the count accounting, for both
transaction variants.
-/

lemma capacityInv_iff {C : Int} {s : LedgerState} :
    CapacityInv C s ↔ ∃ d, s.eventDoc = some d ∧ d.capacity = some C ∧
      0 ≤ d.registeredCount.getD 0 ∧ d.registeredCount.getD 0 ≤ C := by
  unfold CapacityInv
  cases s.eventDoc <;> simp

lemma countOf_of_doc {s : LedgerState} {d : EventDoc} (hd : s.eventDoc = some d) :
    countOf s = d.registeredCount.getD 0 := by
  unfold countOf
  rw [hd]

lemma register_capacityInv_step {C : Int} {s : LedgerState} (u : String)
    (h : CapacityInv C s) :
    CapacityInv C (registerForEvent s u).fst ∧
    countOf (registerForEvent s u).fst =
      countOf s + (if exceptOk (registerForEvent s u).snd = true then 1 else 0) := by
  rcases register_cases s u with ⟨hf, hok⟩ | ⟨d, hd, _, hc, heq⟩
  · rw [hf, hok]
    simp [h]
  · obtain ⟨d', hd', hcap, h0, _⟩ := capacityInv_iff.mp h
    rw [hd] at hd'
    injection hd' with hdd
    subst hdd
    rw [heq]
    have hcC : d.registeredCount.getD 0 < C := by
      rw [hcap] at hc
      simpa using hc
    refine ⟨capacityInv_iff.mpr ⟨_, rfl, by simpa using hcap, by simpa using by omega,
      by simpa using by omega⟩, ?_⟩
    rw [countOf_of_doc hd]
    simp [countOf, exceptOk]

lemma countOnly_capacityInv_step {C : Int} {s : LedgerState} (u : String)
    (h : CapacityInv C s) :
    CapacityInv C (registerForEventCountOnly s u).fst ∧
    countOf (registerForEventCountOnly s u).fst =
      countOf s + (if (registerForEventCountOnly s u).snd.isSome then 1 else 0) := by
  rcases countOnly_cases s u with ⟨hf, hok⟩ | ⟨d, hd, hc, _, heq⟩
  · rw [hf, hok]
    simp [h]
  · obtain ⟨d', hd', hcap, h0, _⟩ := capacityInv_iff.mp h
    rw [hd] at hd'
    injection hd' with hdd
    subst hdd
    rw [heq]
    have hcC : d.registeredCount.getD 0 < C := by
      rw [hcap] at hc
      simp [jsGe] at hc
      omega
    refine ⟨capacityInv_iff.mpr ⟨_, rfl, by simpa using hcap, by simpa using by omega,
      by simpa using by omega⟩, ?_⟩
    rw [countOf_of_doc hd]
    simp [countOf]

lemma runRegisters_capacityInv {C : Int} :
    ∀ (us : List String) (s : LedgerState), CapacityInv C s →
      CapacityInv C (runRegisters s us).fst ∧
      countOf (runRegisters s us).fst =
        countOf s + successCount (runRegisters s us).snd := by
  intro us
  induction us with
  | nil =>
      intro s h
      simpa [runRegisters_nil, successCount] using h
  | cons u us ih =>
      intro s h
      obtain ⟨hinv, hcount⟩ := register_capacityInv_step u h
      obtain ⟨hinv2, hcount2⟩ := ih _ hinv
      rw [runRegisters_cons]
      refine ⟨hinv2, ?_⟩
      rw [successCount_cons]
      simp only at hcount2 ⊢
      rw [hcount2, hcount]
      push_cast
      ring

lemma runRegistersCountOnly_capacityInv {C : Int} :
    ∀ (us : List String) (s : LedgerState), CapacityInv C s →
      CapacityInv C (runRegistersCountOnly s us).fst ∧
      countOf (runRegistersCountOnly s us).fst =
        countOf s + successCountV2 (runRegistersCountOnly s us).snd := by
  intro us
  induction us with
  | nil =>
      intro s h
      simpa [runRegistersCountOnly_nil, successCountV2] using h
  | cons u us ih =>
      intro s h
      obtain ⟨hinv, hcount⟩ := countOnly_capacityInv_step u h
      obtain ⟨hinv2, hcount2⟩ := ih _ hinv
      rw [runRegistersCountOnly_cons]
      refine ⟨hinv2, ?_⟩
      rw [successCountV2_cons]
      simp only at hcount2 ⊢
      rw [hcount2, hcount]
      push_cast
      ring

/-!
Marker-invariant preservation and registration-membership lemmas for the
marker-based variant.
-/

lemma register_markerInv_step {s : LedgerState} (u : String) (h : MarkerInv s) :
    MarkerInv (registerForEvent s u).fst := by
  rcases register_cases s u with ⟨hf, _⟩ | ⟨d, hd, _, _, heq⟩
  · rw [hf]
    exact h
  · rw [heq]
    intro d' hd'
    injection hd' with hdd
    subst hdd
    have hlen := h d hd
    simp only [List.length_cons, Option.getD_some]
    push_cast
    omega

lemma runRegisters_markerInv :
    ∀ (us : List String) (s : LedgerState), MarkerInv s →
      MarkerInv (runRegisters s us).fst := by
  intro us
  induction us with
  | nil =>
      intro s h
      simpa [runRegisters_nil] using h
  | cons u us ih =>
      intro s h
      rw [runRegisters_cons]
      exact ih _ (register_markerInv_step u h)

lemma register_mem_mono {s : LedgerState} {x : String} (u : String)
    (h : x ∈ s.registrations) : x ∈ (registerForEvent s u).fst.registrations := by
  rcases register_cases s u with ⟨hf, _⟩ | ⟨d, _, _, _, heq⟩
  · rw [hf]
    exact h
  · rw [heq]
    exact List.mem_cons_of_mem _ h

lemma register_not_ok_of_mem {s : LedgerState} {u : String}
    (h : u ∈ s.registrations) : exceptOk (registerForEvent s u).snd = false := by
  rcases register_cases s u with ⟨_, hok⟩ | ⟨d, _, hm, _, _⟩
  · exact hok
  · exact absurd h hm

lemma register_fst_of_not_ok {s : LedgerState} {u : String}
    (h : exceptOk (registerForEvent s u).snd = false) :
    (registerForEvent s u).fst = s := by
  rcases register_cases s u with ⟨hf, _⟩ | ⟨d, _, _, _, heq⟩
  · exact hf
  · rw [heq] at h ⊢
    simp [exceptOk] at h

lemma register_mem_of_ok {s : LedgerState} {u : String}
    (h : exceptOk (registerForEvent s u).snd = true) :
    u ∈ (registerForEvent s u).fst.registrations := by
  rcases register_cases s u with ⟨_, hok⟩ | ⟨d, _, _, _, heq⟩
  · rw [hok] at h
    cases h
  · rw [heq]
    exact List.mem_cons_self _ _

lemma successCountFor_zero_of_mem {u : String} :
    ∀ (us : List String) (s : LedgerState), u ∈ s.registrations →
      successCountFor u (runRegisters s us).snd = 0 := by
  intro us
  induction us with
  | nil =>
      intro s _
      simp [runRegisters_nil, successCountFor]
  | cons v us ih =>
      intro s h
      rw [runRegisters_cons, successCountFor_cons]
      have hrest := ih _ (register_mem_mono v h)
      by_cases hv : v = u
      · subst hv
        rw [register_not_ok_of_mem h]
        simpa using hrest
      · simpa [hv] using hrest

lemma successCountFor_le_one {u : String} :
    ∀ (us : List String) (s : LedgerState), u ∉ s.registrations →
      successCountFor u (runRegisters s us).snd ≤ 1 := by
  intro us
  induction us with
  | nil =>
      intro s _
      simp [runRegisters_nil, successCountFor]
  | cons v us ih =>
      intro s h
      rw [runRegisters_cons, successCountFor_cons]
      by_cases hv : v = u
      · subst hv
        by_cases hok : exceptOk (registerForEvent s v).snd = true
        · have hmem := register_mem_of_ok hok
          have hrest := successCountFor_zero_of_mem us _ hmem
          simp [hok, hrest]
        · have hf := register_fst_of_not_ok (Bool.not_eq_true _ ▸ hok)
          rw [hf]
          have hrest := ih s h
          simp only [Bool.not_eq_true] at hok
          simpa [hok] using hrest
      · have hnm : u ∉ (registerForEvent s v).fst.registrations := by
          rcases register_cases s v with ⟨hf, _⟩ | ⟨d, _, _, _, heq⟩
          · rw [hf]
            exact h
          · rw [heq]
            intro hmem
            rcases List.mem_cons.mp hmem with hvu | hmem2
            · exact hv hvu.symm
            · exact h hmem2
        have hrest := ih _ hnm
        simpa [hv] using hrest

/-!
Runs against a full event never change the state, for both variants.
-/

lemma runRegisters_of_full {s : LedgerState} {d : EventDoc}
    (hd : s.eventDoc = some d)
    (hc : d.registeredCount.getD 0 ≥ d.capacity.getD 0) :
    ∀ us : List String, (∀ u ∈ us, u ∉ s.registrations) →
      runRegisters s us = (s, us.map (fun u => (u, Except.error RegError.eventFull))) := by
  intro us
  induction us with
  | nil =>
      intro _
      simp [runRegisters_nil]
  | cons u us ih =>
      intro hmem
      rw [runRegisters_cons, register_eq_of_full hd (hmem u (List.mem_cons_self u us)) hc]
      have ih2 := ih (fun v hv => hmem v (List.mem_cons_of_mem u hv))
      simp [ih2]

lemma runRegistersCountOnly_of_full {s : LedgerState} {d : EventDoc}
    (hd : s.eventDoc = some d)
    (hc : jsGe (d.registeredCount.getD 0) d.capacity = true) :
    ∀ us : List String,
      runRegistersCountOnly s us = (s, us.map (fun _ => (none : Option EventDoc))) := by
  intro us
  induction us with
  | nil => simp [runRegistersCountOnly_nil]
  | cons u us ih =>
      rw [runRegistersCountOnly_cons, countOnly_eq_of_full u hd hc]
      simp [ih]

/-- A concrete single-event ledger: a document with the given
`registeredCount`, `capacity` and `status`, and no registration markers. -/
def demoState (count cap : Int) (status : String) : LedgerState :=
  { eventDoc := some { registeredCount := some count, capacity := some cap, status := status }
    registrations := [] }

/-!
The claims.
-/

/-- C1: For every sequence of register calls executed atomically, one
transaction at a time, against a single Event with capacity `C`, at most
`C` calls succeed, and after every committed call
`0 ≤ registeredCount ≤ capacity` holds. Both transaction variants preserve
the invariant `CapacityInv C` (the prefix of a sequence is itself a
sequence, so the universally quantified statement bounds every intermediate
state), and the number of successful calls never exceeds `C`. -/
theorem capacity_never_exceeded :
    (∀ (C : Int) (s : LedgerState) (us : List String), CapacityInv C s →
        CapacityInv C (runRegisters s us).fst ∧
        (successCount (runRegisters s us).snd : Int) ≤ C) ∧
    (∀ (C : Int) (s : LedgerState) (us : List String), CapacityInv C s →
        CapacityInv C (runRegistersCountOnly s us).fst ∧
        (successCountV2 (runRegistersCountOnly s us).snd : Int) ≤ C) := by
  constructor
  · intro C s us h
    obtain ⟨hinv, hcount⟩ := runRegisters_capacityInv us s h
    refine ⟨hinv, ?_⟩
    obtain ⟨d0, hd0, _, h00, _⟩ := capacityInv_iff.mp h
    obtain ⟨d1, hd1, _, _, h1C⟩ := capacityInv_iff.mp hinv
    rw [countOf_of_doc hd0, countOf_of_doc hd1] at hcount
    omega
  · intro C s us h
    obtain ⟨hinv, hcount⟩ := runRegistersCountOnly_capacityInv us s h
    refine ⟨hinv, ?_⟩
    obtain ⟨d0, hd0, _, h00, _⟩ := capacityInv_iff.mp h
    obtain ⟨d1, hd1, _, _, h1C⟩ := capacityInv_iff.mp hinv
    rw [countOf_of_doc hd0, countOf_of_doc hd1] at hcount
    omega

/-- Witness for C1: a capacity-1 published event; of two sequential calls
exactly one succeeds in each variant and the invariant still holds. -/
theorem capacity_never_exceeded_witness :
    CapacityInv 1 (demoState 0 1 "publicado") ∧
    (CapacityInv 1 (runRegisters (demoState 0 1 "publicado") ["a", "b"]).fst ∧
      (successCount (runRegisters (demoState 0 1 "publicado") ["a", "b"]).snd : Int) ≤ 1) ∧
    (CapacityInv 1 (runRegistersCountOnly (demoState 0 1 "publicado") ["a", "b"]).fst ∧
      (successCountV2 (runRegistersCountOnly (demoState 0 1 "publicado") ["a", "b"]).snd : Int) ≤ 1) :=
  have h : CapacityInv 1 (demoState 0 1 "publicado") :=
    capacityInv_iff.mpr ⟨_, rfl, rfl, by decide, by decide⟩
  ⟨h, capacity_never_exceeded.1 1 _ ["a", "b"] h, capacity_never_exceeded.2 1 _ ["a", "b"] h⟩

/-- C5: registering on a full event (`registeredCount >= capacity`) any
number of times always yields the EventFull outcome and never mutates the
event record or the registration markers: the marker-based variant throws
`Error('EventFull')` on every call (for callers without a marker, whose
calls reach the capacity check), the count-only variant signals the same
failure as its `null` result, and in both variants the final state is the
unchanged input state. -/
theorem full_event_failure_idempotent :
    (∀ (s : LedgerState) (d : EventDoc) (us : List String), s.eventDoc = some d →
        d.registeredCount.getD 0 ≥ d.capacity.getD 0 →
        (∀ u ∈ us, u ∉ s.registrations) →
        runRegisters s us = (s, us.map (fun u => (u, Except.error RegError.eventFull)))) ∧
    (∀ (s : LedgerState) (d : EventDoc) (us : List String), s.eventDoc = some d →
        jsGe (d.registeredCount.getD 0) d.capacity = true →
        runRegistersCountOnly s us = (s, us.map (fun _ => (none : Option EventDoc)))) := by
  constructor
  · intro s d us hd hc hmem
    exact runRegisters_of_full hd hc us hmem
  · intro s d us hd hc
    exact runRegistersCountOnly_of_full hd hc us

/-- Witness for C5: a full capacity-2 event; three calls in a row all fail
with EventFull (marker-based) / `null` (count-only) and leave the ledger
unchanged. -/
theorem full_event_failure_idempotent_witness :
    ((demoState 2 2 "publicado").eventDoc =
        some { registeredCount := some 2, capacity := some 2, status := "publicado" }) ∧
    runRegisters (demoState 2 2 "publicado") ["a", "b", "c"] =
      (demoState 2 2 "publicado",
        [("a", Except.error RegError.eventFull), ("b", Except.error RegError.eventFull),
          ("c", Except.error RegError.eventFull)]) ∧
    runRegistersCountOnly (demoState 2 2 "publicado") ["a", "b", "c"] =
      (demoState 2 2 "publicado", [none, none, none]) :=
  ⟨rfl,
    full_event_failure_idempotent.1 (demoState 2 2 "publicado") _ ["a", "b", "c"] rfl
      (by decide) (by decide),
    full_event_failure_idempotent.2 (demoState 2 2 "publicado") _ ["a", "b", "c"] rfl
      (by decide)⟩

/-- C9: in the marker-based `registerForEvent`, a missing `registeredCount`
field is read as 0 (`data.registeredCount || 0`), and a missing `capacity`
field is read as 0 (`data.capacity || 0`); consequently, on an event
document lacking a `capacity` field every call by an unregistered user
fails with EventFull (`0 >= 0`) and leaves the state unchanged, so no
registration marker is ever created. -/
theorem missing_fields_default_to_zero :
    (∀ (d : EventDoc) (regs : List String) (u : String),
        (registerForEvent
          { eventDoc := some { d with registeredCount := none }, registrations := regs } u).snd =
        (registerForEvent
          { eventDoc := some { d with registeredCount := some 0 }, registrations := regs } u).snd) ∧
    (∀ (s : LedgerState) (d : EventDoc) (u : String), s.eventDoc = some d →
        d.capacity = none → 0 ≤ d.registeredCount.getD 0 → u ∉ s.registrations →
        registerForEvent s u = (s, Except.error RegError.eventFull)) := by
  constructor
  · intro d regs u
    unfold registerForEvent
    by_cases hm : u ∈ regs
    · simp [hm]
    · simp only [hm, if_neg, ite_false, Option.getD_some, Option.getD_none]
      split <;> rfl
  · intro s d u hd hcap h0 hm
    refine register_eq_of_full hd hm ?_
    rw [hcap]
    simpa using h0

/-- Witness for C9: a document with no `registeredCount` behaves as count 0,
and a document with no `capacity` rejects an unregistered user with
EventFull, unchanged. -/
theorem missing_fields_default_to_zero_witness :
    ((registerForEvent
        { eventDoc := some { registeredCount := none, capacity := some 3, status := "publicado" },
          registrations := [] } "u1").snd =
      (registerForEvent
        { eventDoc := some { registeredCount := some 0, capacity := some 3, status := "publicado" },
          registrations := [] } "u1").snd) ∧
    registerForEvent
        { eventDoc := some { registeredCount := some 0, capacity := none, status := "publicado" },
          registrations := [] } "u1" =
      ({ eventDoc := some { registeredCount := some 0, capacity := none, status := "publicado" },
          registrations := [] }, Except.error RegError.eventFull) :=
  ⟨missing_fields_default_to_zero.1
      { registeredCount := none, capacity := some 3, status := "publicado" } [] "u1",
    missing_fields_default_to_zero.2
      { eventDoc := some { registeredCount := some 0, capacity := none, status := "publicado" },
        registrations := [] }
      { registeredCount := some 0, capacity := none, status := "publicado" } "u1" rfl rfl
      (by decide) (by decide)⟩

/-- C10: `registerForEventAction` is total over its outcomes: every input
yields a `FormState` and no exception escapes to the caller; an
unauthenticated request yields `authError()` (success `false` with the
`errors.auth` entry), a data-layer exception is caught and mapped to a
failure message, a `null` data result maps to a generic failure, and only a
non-null event yields success with the event as `data`; overall, the result
is successful exactly when the caller is authenticated and the data layer
returned an event. -/
theorem action_total_over_outcomes :
    (∀ r, registerForEventAction none r = authError) ∧
    authError.success = false ∧
    authError.errorsAuth = some ["No autenticado"] ∧
    (∀ (uid m : String), registerForEventAction (some uid) (.error m) =
        { success := false, message := some (jsOrString m "Error al registrarse") }) ∧
    (∀ uid : String, registerForEventAction (some uid) (.ok none) =
        { success := false,
          message := some "No se pudo completar el registro. Intenta de nuevo." }) ∧
    (∀ (uid : String) (ev : EventDoc), registerForEventAction (some uid) (.ok (some ev)) =
        { success := true, message := some "¡Te has registrado correctamente!",
          data := some ev }) ∧
    (∀ (auth : Option String) (r : Except String (Option EventDoc)),
        (registerForEventAction auth r).success = true ↔
          ((∃ uid, auth = some uid) ∧ ∃ ev, r = .ok (some ev))) := by
  refine ⟨fun _ => rfl, rfl, rfl, fun _ _ => rfl, fun _ => rfl, fun _ _ => rfl, ?_⟩
  intro auth r
  cases auth with
  | none => simp [registerForEventAction, authError]
  | some uid =>
      cases r with
      | error m => simp [registerForEventAction]
      | ok o => cases o <;> simp [registerForEventAction]

/-- C2 counterexample: the count-only `registerForEvent` commits a
successful registration transaction (capacity-1 published event, no
markers) after which the event holds one registered count but zero
registration markers — the marker count does not equal `registeredCount`
after this committed transaction. -/
theorem count_only_commit_breaks_marker_invariant :
    (registerForEventCountOnly (demoState 0 1 "publicado") "u1").snd.isSome = true ∧
    ¬ MarkerInv (registerForEventCountOnly (demoState 0 1 "publicado") "u1").fst := by
  refine ⟨rfl, ?_⟩
  intro h
  have h1 := h { registeredCount := some 1, capacity := some 1, status := "publicado" } rfl
  have h2 : (registerForEventCountOnly (demoState 0 1 "publicado") "u1").fst.registrations =
      ([] : List String) := rfl
  rw [h2] at h1
  simp at h1

/-- C2 amended: in the marker-based `registerForEvent`, each successful
transaction creates exactly one registration marker atomically with the
increment of `registeredCount` by 1, so the marker invariant (markers =
`registeredCount`) holds after every committed transaction when it held
initially; the count-only variant increments the count without creating any
marker and violates the invariant. -/
theorem marker_invariant_after_commits :
    (∀ (s : LedgerState) (us : List String), MarkerInv s →
        MarkerInv (runRegisters s us).fst) ∧
    (∀ (s : LedgerState) (u : String), exceptOk (registerForEvent s u).snd = true →
        (registerForEvent s u).fst.registrations = u :: s.registrations ∧
        countOf (registerForEvent s u).fst = countOf s + 1) := by
  constructor
  · intro s us h
    exact runRegisters_markerInv us s h
  · intro s u hok
    rcases register_cases s u with ⟨_, hok2⟩ | ⟨d, hd, _, _, heq⟩
    · rw [hok2] at hok
      cases hok
    · rw [heq]
      refine ⟨rfl, ?_⟩
      rw [countOf_of_doc hd]
      simp [countOf]

/-- Witness for C2 (amended): a fresh capacity-2 published event satisfies
the marker invariant, still satisfies it after a run, and the successful
first call adds exactly the one marker together with the increment. -/
theorem marker_invariant_after_commits_witness :
    MarkerInv (demoState 0 2 "publicado") ∧
    MarkerInv (runRegisters (demoState 0 2 "publicado") ["a", "b"]).fst ∧
    (exceptOk (registerForEvent (demoState 0 2 "publicado") "a").snd = true ∧
      (registerForEvent (demoState 0 2 "publicado") "a").fst.registrations = ["a"] ∧
      countOf (registerForEvent (demoState 0 2 "publicado") "a").fst =
        countOf (demoState 0 2 "publicado") + 1) :=
  have h : MarkerInv (demoState 0 2 "publicado") := by
    intro d hd
    injection hd with hdd
    subst hdd
    rfl
  have hok : exceptOk (registerForEvent (demoState 0 2 "publicado") "a").snd = true := rfl
  ⟨h, marker_invariant_after_commits.1 _ ["a", "b"] h,
    hok, marker_invariant_after_commits.2 _ "a" hok⟩

/-- C3 counterexample: with the count-only `registerForEvent` (which
ignores its `_userId` argument and checks no marker), the same user
registering twice in sequence on a published capacity-2 event yields two
successes — not one success and one AlreadyRegistered, and two successful
registrations for the same (eventId, userId) pair occur. -/
theorem double_registration_in_count_only :
    successCountV2 (runRegistersCountOnly (demoState 0 2 "publicado") ["u1", "u1"]).snd = 2 := by
  rfl

/-- C3 amended: for the marker-based `registerForEvent`, calling register
twice for the same user yields exactly one success and one
AlreadyRegistered (the first call succeeds on an existing, non-full event
when no marker exists; any call after a success fails with
AlreadyRegistered), and along any sequence of calls a user starting without
a marker never obtains more than one success. -/
theorem no_double_registration_marker_based :
    (∀ (s : LedgerState) (d : EventDoc) (u : String), s.eventDoc = some d →
        u ∉ s.registrations → d.registeredCount.getD 0 < d.capacity.getD 0 →
        exceptOk (registerForEvent s u).snd = true) ∧
    (∀ (s : LedgerState) (u : String), exceptOk (registerForEvent s u).snd = true →
        (registerForEvent (registerForEvent s u).fst u).snd =
          Except.error RegError.alreadyRegistered) ∧
    (∀ (s : LedgerState) (us : List String) (u : String), u ∉ s.registrations →
        successCountFor u (runRegisters s us).snd ≤ 1) := by
  refine ⟨?_, ?_, ?_⟩
  · intro s d u hd hm hc
    rw [register_eq_of_free hd hm hc]
    rfl
  · intro s u hok
    rcases register_cases s u with ⟨_, hok2⟩ | ⟨d, hd, hm, hc, heq⟩
    · rw [hok2] at hok
      cases hok
    · have hd2 : (registerForEvent s u).fst.eventDoc =
          some { d with registeredCount := some (d.registeredCount.getD 0 + 1) } := by
        rw [heq]
      have hm2 : u ∈ (registerForEvent s u).fst.registrations := by
        rw [heq]
        exact List.mem_cons_self u s.registrations
      rw [register_eq_of_mem hd2 hm2]
  · intro s us u h
    exact successCountFor_le_one us s h

/-- Witness for C3 (amended): on a fresh capacity-2 published event, the
first call for user `a` succeeds, the immediate second call for `a` fails
with AlreadyRegistered, and over the two-call sequence user `a` records
exactly one success. -/
theorem no_double_registration_marker_based_witness :
    exceptOk (registerForEvent (demoState 0 2 "publicado") "a").snd = true ∧
    (registerForEvent (registerForEvent (demoState 0 2 "publicado") "a").fst "a").snd =
      Except.error RegError.alreadyRegistered ∧
    successCountFor "a" (runRegisters (demoState 0 2 "publicado") ["a", "a"]).snd ≤ 1 :=
  have hok : exceptOk (registerForEvent (demoState 0 2 "publicado") "a").snd = true :=
    no_double_registration_marker_based.1 (demoState 0 2 "publicado")
      { registeredCount := some 0, capacity := some 2, status := "publicado" } "a" rfl
      (by decide) (by decide)
  ⟨hok, no_double_registration_marker_based.2.1 _ "a" hok,
    no_double_registration_marker_based.2.2 _ ["a", "a"] "a" (by decide)⟩

/-- C4 counterexample: the marker-based `registerForEvent` performs no
status check at all: on an existing draft (`"borrador"`, not published)
event with free capacity and an unregistered user, registration succeeds
instead of failing with EventNotPublished. -/
theorem unpublished_event_registration_succeeds :
    "borrador" ≠ "publicado" ∧
    exceptOk (registerForEvent (demoState 0 5 "borrador") "u1").snd = true := by
  exact ⟨by decide, rfl⟩

/-- C4 amended: registration on a non-published event is rejected only by
the count-only variant, which returns `null` (indistinguishable from its
other failures, not a typed EventNotPublished) and only when the capacity
check, which runs first, passes; the marker-based variant never inspects
`status`, so its outcome is unchanged under any status and a non-full event
accepts the registration regardless of status. -/
theorem unpublished_event_behavior :
    (∀ (rc cap : Option Int) (regs : List String) (st1 st2 : String) (u : String),
        exceptOk (registerForEvent
            { eventDoc := some { registeredCount := rc, capacity := cap, status := st1 },
              registrations := regs } u).snd =
        exceptOk (registerForEvent
            { eventDoc := some { registeredCount := rc, capacity := cap, status := st2 },
              registrations := regs } u).snd) ∧
    (∀ (s : LedgerState) (d : EventDoc) (u : String), s.eventDoc = some d →
        jsGe (d.registeredCount.getD 0) d.capacity = false → d.status ≠ "publicado" →
        registerForEventCountOnly s u = (s, none)) := by
  constructor
  · intro rc cap regs st1 st2 u
    unfold registerForEvent
    by_cases hm : u ∈ regs
    · simp [hm]
    · simp only [hm, ite_false]
      split <;> rfl
  · intro s d u hd hc hs
    exact countOnly_eq_of_unpublished u hd hc hs

/-- Witness for C4 (amended): the marker-based success bit is the same for
a draft and a published document, and the count-only variant rejects a
non-full draft event with `null`, unchanged state. -/
theorem unpublished_event_behavior_witness :
    (exceptOk (registerForEvent (demoState 0 5 "borrador") "u1").snd =
      exceptOk (registerForEvent (demoState 0 5 "publicado") "u1").snd) ∧
    registerForEventCountOnly (demoState 0 5 "borrador") "u1" =
      (demoState 0 5 "borrador", none) :=
  ⟨unpublished_event_behavior.1 (some 0) (some 5) [] "borrador" "publicado" "u1",
    unpublished_event_behavior.2 (demoState 0 5 "borrador")
      { registeredCount := some 0, capacity := some 5, status := "borrador" } "u1" rfl
      (by decide) (by decide)⟩

/-- C6 counterexample: with the count-only data layer, an EventFull
situation (full capacity-1 published event) and a NotFound situation
(missing event document) reach the caller as the exact same `FormState`
value — the failure cause is collapsed into a single undifferentiated
failure and the caller cannot branch on it. -/
theorem failure_causes_collapsed_in_count_only :
    (actionWithCountOnly (some "u1") (demoState 1 1 "publicado")).snd =
      (actionWithCountOnly (some "u1") { eventDoc := none, registrations := [] }).snd ∧
    (actionWithCountOnly (some "u1") (demoState 1 1 "publicado")).snd.success = false := by
  exact ⟨rfl, rfl⟩

/-- C6 amended: with the marker-based data layer, every business-rule
failure reaches the caller as a typed `FormState` (never an uncaught
exception: the action catches the thrown error and maps it), carrying the
failure cause as the error's message string, and the three causes have
pairwise distinct messages, so the caller can branch on the cause; with
the count-only data layer all causes collapse into one generic failure. -/
theorem failure_causes_reach_caller_marker_based :
    (∀ (uid : String) (s : LedgerState) (e : RegError),
        (registerForEvent s uid).snd = Except.error e →
        (actionWithMarkers (some uid) s).snd =
          { success := false, message := some e.message }) ∧
    RegError.message RegError.notFound ≠ RegError.message RegError.alreadyRegistered ∧
    RegError.message RegError.notFound ≠ RegError.message RegError.eventFull ∧
    RegError.message RegError.alreadyRegistered ≠ RegError.message RegError.eventFull := by
  refine ⟨?_, by decide, by decide, by decide⟩
  · intro uid s e h
    simp only [actionWithMarkers, registerForEventAction, markersDataResult]
    rw [h]
    cases e <;> rfl

/-- Witness for C6 (amended): a call on a missing event reaches the caller
as the typed failure carrying the NotFound message. -/
theorem failure_causes_reach_caller_marker_based_witness :
    (registerForEvent { eventDoc := none, registrations := [] } "u1").snd =
      Except.error RegError.notFound ∧
    (actionWithMarkers (some "u1") { eventDoc := none, registrations := [] }).snd =
      { success := false, message := some "Evento no encontrado" } :=
  ⟨rfl, failure_causes_reach_caller_marker_based.1 "u1"
    { eventDoc := none, registrations := [] } RegError.notFound rfl⟩

/-- C7 counterexample: with `availableSpots = 3`, as soon as the
speculative decrement applies (`optimisticSpots = max 0 (3 - 1) = 2`) and
while the server call is still pending (`isPending = true`, no
confirmation yet), `RegisterButton` already renders the `¡Registrado!`
confirmation, and that rendered output is identical to the one after the
transition settles — the rendered state does not distinguish the
provisional phase from the confirmed one. -/
theorem registered_confirmation_shown_while_pending :
    optimisticReducer 3 = 2 ∧
    renderRegisterButton 3 (optimisticReducer 3) true true = RenderedView.registeredBadge ∧
    renderRegisterButton 3 (optimisticReducer 3) true true =
      renderRegisterButton 3 (optimisticReducer 3) true false := by
  exact ⟨rfl, rfl, rfl⟩

/-- C7 amended: whenever the speculative decrement has been applied
(`optimisticSpots < availableSpots`), `RegisterButton` renders the
`¡Registrado!` confirmation regardless of whether the server call is still
pending — the visible confirmation is shown before the server confirms,
and the provisional phase is distinguishable only through the internal
`isPending` flag, not through the rendered output. -/
theorem registered_badge_ignores_confirmation :
    ∀ (availableSpots optimisticSpots : Int) (isAvailable isPending : Bool),
      optimisticSpots < availableSpots →
      renderRegisterButton availableSpots optimisticSpots isAvailable isPending =
        RenderedView.registeredBadge := by
  intro a o av p h
  unfold renderRegisterButton
  simp [h]

/-- Witness for C7 (amended): the pending speculative state with 2 of 3
spots renders the confirmation badge. -/
theorem registered_badge_ignores_confirmation_witness :
    (2 : Int) < 3 ∧ renderRegisterButton 3 2 true true = RenderedView.registeredBadge :=
  ⟨by decide, registered_badge_ignores_confirmation 3 2 true true (by decide)⟩

/-- C8 counterexample: when the registration action fails (here with the
EventFull message), the settled component state reverts the speculative
decrement (`displayedSpots` back to the authoritative 3) but surfaces no
failure reason to the caller: the reason is only passed to
`console.error`. -/
theorem failure_reason_only_logged :
    settleRegister 3 { success := false, message := some "EventFull" } =
      { displayedSpots := 3, surfacedMessage := none, loggedError := some "EventFull" } ∧
    (settleRegister 3 { success := false, message := some "EventFull" }).surfacedMessage =
      none := by
  exact ⟨rfl, rfl⟩

/-- C8 amended: on every failed registration attempt the client controller
discards the speculative delta — the displayed value reverts to the
unchanged authoritative `availableSpots` — but the failure reason is only
logged via `console.error`; no human-readable reason is surfaced to the
caller. -/
theorem rollback_on_failure_only_logs :
    ∀ (availableSpots : Int) (result : FormState), result.success = false →
      settleRegister availableSpots result =
        { displayedSpots := availableSpots, surfacedMessage := none,
          loggedError := some (result.message.getD "") } := by
  intro a r h
  unfold settleRegister
  rw [h]
  simp

/-- Witness for C8 (amended): a concrete failed result rolls back to 3
spots and is only logged. -/
theorem rollback_on_failure_only_logs_witness :
    ({ success := false, message := some "EventFull" } : FormState).success = false ∧
    settleRegister 3 { success := false, message := some "EventFull" } =
      { displayedSpots := 3, surfacedMessage := none, loggedError := some "EventFull" } :=
  ⟨rfl, rollback_on_failure_only_logs 3 { success := false, message := some "EventFull" } rfl⟩

end EventPass
